import Mathlib

/-!
Verification model of the subscription registry, message dispatcher,
pull async-iterator bridge and stream-id comparator of the
`graphql-redis-subscriptions` package.

The registry model follows `src/redis-pubsub.ts` (the `RedisPubSubBase`
subclass): JS `Map`/object maps become association lists, a JS `Set`
becomes an insertion-ordered duplicate-free list, and the asynchronous
gap between issuing a transport `subscribe` command and its
acknowledgment becomes an explicit `inflight` list consumed by an `ack`
step.  The iterator model follows `src/pubsub-async-iterator.ts`, with
registry interaction recorded in an explicit effect log.
-/

namespace GRS

/-- JS `Map.get` / object indexing on an association list. -/
def alookup {κ β : Type} [DecidableEq κ] : List (κ × β) → κ → Option β
  | [], _ => none
  | (k', v) :: rest, k => if k' = k then some v else alookup rest k

/-- JS `Map.set`: replace the value in place if the key is present,
otherwise append the binding. -/
def aset {κ β : Type} [DecidableEq κ] : List (κ × β) → κ → β → List (κ × β)
  | [], k, v => [(k, v)]
  | (k', v') :: rest, k, v =>
    if k' = k then (k, v) :: rest else (k', v') :: aset rest k v

/-- JS `Map.delete` / `delete obj[k]`. -/
def adel {κ β : Type} [DecidableEq κ] (m : List (κ × β)) (k : κ) : List (κ × β) :=
  m.filter (fun p => p.1 ≠ k)

/-- JS `Set.add`: appends iff the element is absent (insertion order kept). -/
def setAdd (l : List Nat) (x : Nat) : List Nat :=
  if x ∈ l then l else l ++ [x]

/-- JS `Set.delete`. -/
def setDelete (l : List Nat) (x : Nat) : List Nat :=
  l.filter (fun y => y ≠ x)

/-- Transport-level commands sent to the redis subscriber client. -/
inductive Cmd : Type where
  | subscribeCmd (channel : String)
  | psubscribeCmd (channel : String)
  | unsubscribeCmd (channel : String)
  | punsubscribeCmd (channel : String)
deriving DecidableEq, Repr

/-- A JS `Set` object stored in `subsRefsMap`.  `gen` is an object
identity tag: the acknowledgment callback of `subscribe` closes over the
`Set` object itself, so a later mutation through that closure only
reaches the map while the map still holds the same object. -/
structure RefSet : Type where
  gen : Nat
  ids : List Nat
deriving DecidableEq, Repr

/-- An unacknowledged transport (p)subscribe command: the callback
registered with the redis client, waiting for `ack`. -/
structure Inflight : Type where
  cmdIdx : Nat
  trigger : String
  subId : Nat
  gen : Nat
  isPattern : Bool
deriving DecidableEq, Repr

/-- Settlement state of the promise returned by `subscribe`. -/
inductive PromiseState : Type where
  | pendingP
  | resolvedP (v : Nat)
  | rejectedP
deriving DecidableEq, Repr

/-- State of one `RedisPubSub` instance, plus the observable transport
command log. -/
structure RegState : Type where
  subscriptionMap : List (Nat × String)
  subsRefsMap : List (String × RefSet)
  currentSubscriptionId : Nat
  nextGen : Nat
  inflight : List Inflight
  promises : List (Nat × PromiseState)
  log : List Cmd
deriving DecidableEq, Repr

/-- Fresh instance as built by the constructor. -/
def initialReg : RegState :=
  { subscriptionMap := []
    subsRefsMap := []
    currentSubscriptionId := 0
    nextGen := 0
    inflight := []
    promises := []
    log := [] }

/-- `RedisPubSub.subscribe(trigger, onMessage, options)` run to its
synchronous return (the trigger name is already resolved).  Allocates
the id, records the subscription, ensures a `Set` exists for the
trigger; if that set is non-empty the call joins it and resolves
immediately, otherwise it issues one transport (p)subscribe command
whose acknowledgment is a later `ack` step. -/
def subscribe (s : RegState) (triggerName : String) (isPattern : Bool) : RegState :=
  let id := s.currentSubscriptionId
  let s1 := { s with
    currentSubscriptionId := id + 1
    subscriptionMap := s.subscriptionMap ++ [(id, triggerName)] }
  match alookup s1.subsRefsMap triggerName with
  | some refs =>
    if refs.ids.length > 0 then
      { s1 with
        subsRefsMap := aset s1.subsRefsMap triggerName
          { refs with ids := setAdd refs.ids id }
        promises := s1.promises ++ [(id, PromiseState.resolvedP id)] }
    else
      { s1 with
        log := s1.log ++ [if isPattern then Cmd.psubscribeCmd triggerName
                          else Cmd.subscribeCmd triggerName]
        inflight := s1.inflight ++ [⟨s1.log.length, triggerName, id, refs.gen, isPattern⟩]
        promises := s1.promises ++ [(id, PromiseState.pendingP)] }
  | none =>
    let refs : RefSet := ⟨s1.nextGen, []⟩
    let s2 := { s1 with
      nextGen := s1.nextGen + 1
      subsRefsMap := aset s1.subsRefsMap triggerName refs }
    { s2 with
      log := s2.log ++ [if isPattern then Cmd.psubscribeCmd triggerName
                        else Cmd.subscribeCmd triggerName]
      inflight := s2.inflight ++ [⟨s2.log.length, triggerName, id, refs.gen, isPattern⟩]
      promises := s2.promises ++ [(id, PromiseState.pendingP)] }

/-- The redis client acknowledges transport command `cmdIdx`
(`ok = false` delivers an error to the callback).  On success the
callback does `refs.add(id)` on the `Set` object it captured — this
reaches the map only if the map still holds that object (`gen` match) —
and resolves; on error it just rejects. -/
def ack (s : RegState) (cmdIdx : Nat) (ok : Bool) : RegState :=
  match s.inflight.find? (fun fl => fl.cmdIdx = cmdIdx) with
  | none => s
  | some fl =>
    let s1 := { s with inflight := s.inflight.filter (fun fl' => fl'.cmdIdx ≠ cmdIdx) }
    if ok then
      let s2 :=
        match alookup s1.subsRefsMap fl.trigger with
        | some r =>
          if r.gen = fl.gen then
            let r' : RefSet := { r with ids := setAdd r.ids fl.subId }
            { s1 with subsRefsMap := aset s1.subsRefsMap fl.trigger r' }
          else s1
        | none => s1
      { s2 with promises := aset s2.promises fl.subId (PromiseState.resolvedP fl.subId) }
    else
      { s1 with promises := aset s1.promises fl.subId PromiseState.rejectedP }

/-- Message of the `Error` thrown by `unsubscribe` on an unknown id. -/
def errMsg (subId : Nat) : String :=
  "There is no subscription of id \"" ++ toString subId ++ "\""

/-- `RedisPubSub.unsubscribe(subId)`.  Looks up the subscription's
trigger (an unknown id yields the JS `null` key, which has no entry);
with no reference set it throws.  A singleton set triggers one transport
unsubscribe and one punsubscribe and deletes the set; otherwise only the
id is removed.  The subscription record is always deleted. -/
def unsubscribe (s : RegState) (subId : Nat) : Except String RegState :=
  match alookup s.subscriptionMap subId with
  | none => Except.error (errMsg subId)
  | some triggerName =>
    match alookup s.subsRefsMap triggerName with
    | none => Except.error (errMsg subId)
    | some refs =>
      let s1 :=
        if refs.ids.length = 1 then
          { s with
            log := s.log ++ [Cmd.unsubscribeCmd triggerName, Cmd.punsubscribeCmd triggerName]
            subsRefsMap := adel s.subsRefsMap triggerName }
        else
          let refs' : RefSet := { refs with ids := setDelete refs.ids subId }
          { s with subsRefsMap := aset s.subsRefsMap triggerName refs' }
      Except.ok { s1 with subscriptionMap := adel s1.subscriptionMap subId }

/-- The dispatcher's payload resolution key: JS `pattern || channel`
(an absent or empty-string pattern falls back to the channel). -/
def resolutionKey (pattern : Option String) (channel : String) : String :=
  match pattern with
  | some p => if p = "" then channel else p
  | none => channel

/-- Deserialization inside `onMessage`'s try/catch: the custom
deserializer when configured, else `JSON.parse` with the optional
reviver (both abstracted as partial functions, `none` = throws); a
throw falls back to the raw un-parsed message. -/
def dispatchPayload {V : Type} (deserializer : Option (String → Option V))
    (jsonParse : String → Option V) (message : String) : V ⊕ String :=
  let attempt := match deserializer with
    | some d => d message
    | none => jsonParse message
  match attempt with
  | some v => Sum.inl v
  | none => Sum.inr message

/-- `subscribers.forEach(subId => { const [, listener] =
this.subscriptionMap[subId]; listener(parsedMessage); })` with JS
exception semantics: a missing record throws on destructuring before
the listener runs, and a throwing listener (per `thrws`) aborts the
iteration after its own invocation.  Returns the ids whose listeners
were invoked, in order, and whether an exception escaped. -/
def forEachInvoke (subscriptionMap : List (Nat × String)) (thrws : Nat → Bool) :
    List Nat → List Nat × Bool
  | [] => ([], false)
  | i :: rest =>
    match alookup subscriptionMap i with
    | none => ([], true)
    | some _ =>
      if thrws i then ([i], true)
      else
        let r := forEachInvoke subscriptionMap thrws rest
        (i :: r.1, r.2)

/-- Result of one `onMessage` dispatch: which subscription ids had
their listener invoked, the payload they were all invoked with
(`none` when the message was dropped), and whether an exception
escaped the handler. -/
structure DispatchResult (V : Type) : Type where
  invoked : List Nat
  payload : Option (V ⊕ String)
  threw : Bool
deriving DecidableEq, Repr

/-- `RedisPubSub.onMessage(pattern, channel, message)`: resolve the
reference set by `pattern || channel`; drop the message when the set is
absent or empty; otherwise deserialize (with raw fallback) and invoke
the listeners of the set's ids in order. -/
def onMessage {V : Type} (s : RegState) (thrws : Nat → Bool)
    (deserializer : Option (String → Option V)) (jsonParse : String → Option V)
    (pattern : Option String) (channel message : String) : DispatchResult V :=
  match alookup s.subsRefsMap (resolutionKey pattern channel) with
  | none => ⟨[], none, false⟩
  | some subscribers =>
    if subscribers.ids.length = 0 then ⟨[], none, false⟩
    else
      let parsedMessage := dispatchPayload deserializer jsonParse message
      let r := forEachInvoke s.subscriptionMap thrws subscribers.ids
      ⟨r.1, some parsedMessage, r.2⟩

/-- `a.split('-')` on the character list of a redis stream message id. -/
def splitDashChars : List Char → List (List Char)
  | [] => [[]]
  | c :: rest =>
    let r := splitDashChars rest
    if c = '-' then [] :: r
    else
      match r with
      | [] => [[c]]
      | g :: gs => (c :: g) :: gs

/-- JS `parseInt` restricted to the decimal digit strings that make up
stream message ids; anything else (including the empty string) is `NaN`,
modelled as `none`. -/
def parseIntChars (cs : List Char) : Option Nat :=
  if cs = [] then none
  else if cs.all (fun c => c.isDigit) then
    some (cs.foldl (fun n c => n * 10 + (c.toNat - 48)) 0)
  else none

/-- `sortLastMessageIds` from the stream variant: equal ids compare as
0; otherwise split both ids on `-`, parse the two parts as integers and
compare the timestamps, breaking ties on the sequence numbers.  A
comparison that would involve `NaN` or a missing part is `none`. -/
def sortLastMessageIds (a b : String) : Option Int :=
  if a = b then some 0
  else
    match (splitDashChars a.data).map parseIntChars,
          (splitDashChars b.data).map parseIntChars with
    | [some a0, some a1], [some b0, some b1] =>
      if a0 = b0 then some ((a1 : Int) - (b1 : Int))
      else some ((a0 : Int) - (b0 : Int))
    | _, _ => none

/-- Result delivered to a `next()` promise of the async iterator. -/
inductive IterResult (α : Type) : Type where
  | value (v : α)
  | done
deriving DecidableEq, Repr

/-- Observable interactions of one `PubSubAsyncIterator` with its
registry and its callers: registry subscribe/unsubscribe calls, and the
settlement of a pending `next()` promise (identified by its token). -/
inductive IterEff (α : Type) : Type where
  | subscribeE (eventName : String)
  | unsubscribeE (id : Nat)
  | resolveE (token : Nat) (r : IterResult α)
deriving DecidableEq, Repr

/-- State of one `PubSubAsyncIterator`, plus an effect log.
`pullQueue` holds the tokens of pending `next()` promises, `pushQueue`
the buffered events.  `nextSubId` stands for the registry's id counter:
the ids granted by the lazy subscription. -/
structure ItState (α : Type) : Type where
  pullQueue : List Nat
  pushQueue : List α
  listening : Bool
  subscriptionIds : Option (List Nat)
  eventsArray : List String
  nextToken : Nat
  nextSubId : Nat
  effs : List (IterEff α)
deriving DecidableEq, Repr

/-- Iterator as built by the constructor. -/
def initIt (α : Type) (eventNames : List String) : ItState α :=
  { pullQueue := []
    pushQueue := []
    listening := true
    subscriptionIds := none
    eventsArray := eventNames
    nextToken := 0
    nextSubId := 0
    effs := [] }

/-- `subscribeAll()`: on first use, subscribe to every event name and
remember the granted ids; afterwards a no-op. -/
def subscribeAll {α : Type} (s : ItState α) : ItState α :=
  match s.subscriptionIds with
  | some _ => s
  | none =>
    { s with
      subscriptionIds := some ((List.range s.eventsArray.length).map (s.nextSubId + ·))
      nextSubId := s.nextSubId + s.eventsArray.length
      effs := s.effs ++ s.eventsArray.map IterEff.subscribeE }

/-- `pushValue(event)`: ensure subscriptions, then either resolve the
oldest pending request or buffer the event. -/
def pushValue {α : Type} (s : ItState α) (event : α) : ItState α :=
  let s1 := subscribeAll s
  match s1.pullQueue with
  | t :: rest =>
    { s1 with
      pullQueue := rest
      effs := s1.effs ++ [IterEff.resolveE t (IterResult.value event)] }
  | [] => { s1 with pushQueue := s1.pushQueue ++ [event] }

/-- `pullValue()`: allocate the promise for one `next()` call; either
resolve it at once from the buffer or enqueue it as pending.  Returns
the promise's token. -/
def pullValue {α : Type} (s : ItState α) : ItState α × Nat :=
  let t := s.nextToken
  let s1 := { s with nextToken := t + 1 }
  match s1.pushQueue with
  | v :: rest =>
    ({ s1 with
       pushQueue := rest
       effs := s1.effs ++ [IterEff.resolveE t (IterResult.value v)] }, t)
  | [] => ({ s1 with pullQueue := s1.pullQueue ++ [t] }, t)

/-- `emptyQueue()`: on a listening iterator, stop listening, unsubscribe
every acquired id, resolve every pending request with done and clear
both queues; on a closed iterator, a no-op. -/
def emptyQueue {α : Type} (s : ItState α) : ItState α :=
  if s.listening then
    let s1 := { s with listening := false }
    let s2 :=
      match s1.subscriptionIds with
      | some ids => { s1 with effs := s1.effs ++ ids.map IterEff.unsubscribeE }
      | none => s1
    let s3 := { s2 with
      effs := s2.effs ++ s2.pullQueue.map (fun t => IterEff.resolveE t IterResult.done) }
    { s3 with pullQueue := [], pushQueue := [] }
  else s

/-- `return()`: `emptyQueue` and a done result for the caller. -/
def itReturn {α : Type} (s : ItState α) : ItState α :=
  emptyQueue s

/-- How one `next()` call reports its value. -/
inductive NextOutcome : Type where
  | viaToken (t : Nat)
  | doneNow
deriving DecidableEq, Repr

/-- `next()`: ensure subscriptions; when listening, behave as
`pullValue`; when closed, behave as `return()` and yield done. -/
def next {α : Type} (s : ItState α) : ItState α × NextOutcome :=
  let s1 := subscribeAll s
  if s1.listening then
    let r := pullValue s1
    (r.1, NextOutcome.viaToken r.2)
  else
    (itReturn s1, NextOutcome.doneNow)

/-- The public operations a caller (or the registry's listener slot)
can perform on the iterator. -/
inductive IterOp (α : Type) : Type where
  | nextOp
  | pushOp (v : α)
  | returnOp
  | throwOp
deriving DecidableEq, Repr

/-- One operation, as a state transformer (`throw` performs the same
state cleanup as `return`). -/
def applyOp {α : Type} (s : ItState α) : IterOp α → ItState α
  | IterOp.nextOp => (next s).1
  | IterOp.pushOp v => pushValue s v
  | IterOp.returnOp => itReturn s
  | IterOp.throwOp => emptyQueue s

/-- Run a sequence of operations. -/
def runOps {α : Type} (s : ItState α) (ops : List (IterOp α)) : ItState α :=
  ops.foldl applyOp s

/-- The promise-settlement effects among an effect log. -/
def resolveEffs {α : Type} (effs : List (IterEff α)) : List (IterEff α) :=
  effs.filter (fun e => match e with
    | IterEff.resolveE _ _ => true
    | _ => false)

/-- The registry-unsubscribe effects among an effect log. -/
def unsubEffs {α : Type} (effs : List (IterEff α)) : List (IterEff α) :=
  effs.filter (fun e => match e with
    | IterEff.unsubscribeE _ => true
    | _ => false)

theorem alookup_aset_self {κ β : Type} [DecidableEq κ] (m : List (κ × β)) (k : κ) (v : β) :
    alookup (aset m k v) k = some v := by
  induction m with
  | nil => simp [aset, alookup]
  | cons p rest ih =>
    obtain ⟨k', v'⟩ := p
    by_cases h : k' = k
    · simp [aset, h, alookup]
    · simp [aset, h, alookup, ih]

theorem alookup_aset_ne {κ β : Type} [DecidableEq κ] (m : List (κ × β)) (k k' : κ) (v : β)
    (h : k ≠ k') : alookup (aset m k v) k' = alookup m k' := by
  induction m with
  | nil => simp [aset, alookup, h]
  | cons p rest ih =>
    obtain ⟨k0, v0⟩ := p
    by_cases h0 : k0 = k
    · subst h0; simp [aset, alookup, h]
    · simp [aset, h0, alookup, ih]

theorem alookup_adel_self {κ β : Type} [DecidableEq κ] (m : List (κ × β)) (k : κ) :
    alookup (adel m k) k = none := by
  induction m with
  | nil => simp [adel, alookup]
  | cons p rest ih =>
    obtain ⟨k0, v0⟩ := p
    by_cases h0 : k0 = k
    · subst h0; simpa [adel, alookup] using ih
    · simpa [adel, alookup, h0] using ih

theorem alookup_append_fresh {κ β : Type} [DecidableEq κ] (m : List (κ × β)) (k : κ) (v : β)
    (h : alookup m k = none) : alookup (m ++ [(k, v)]) k = some v := by
  induction m with
  | nil => simp [alookup]
  | cons p rest ih =>
    obtain ⟨k0, v0⟩ := p
    by_cases h0 : k0 = k
    · simp [alookup, h0] at h
    · simp [alookup, h0] at h ⊢
      exact ih h

/-- C8: `unsubscribe` on an id with no subscription record (one that was
never issued) throws synchronously; an id that was just unsubscribed
successfully throws the same way on a second call; and the error
message contains the offending id. -/
theorem unsubscribe_unknown_id_throws (s : RegState) (subId : Nat) :
    (alookup s.subscriptionMap subId = none →
      unsubscribe s subId = Except.error (errMsg subId)) ∧
    (∀ s', unsubscribe s subId = Except.ok s' →
      unsubscribe s' subId = Except.error (errMsg subId)) ∧
    (∃ pre post, errMsg subId = pre ++ toString subId ++ post) := by
  refine ⟨?_, ?_, "There is no subscription of id \"", "\"", rfl⟩
  · intro h
    simp [unsubscribe, h]
  · intro s' hok
    have hmap : s'.subscriptionMap = adel s.subscriptionMap subId := by
      unfold unsubscribe at hok
      rcases h1 : alookup s.subscriptionMap subId with _ | t
      · simp [h1] at hok
      · rcases h2 : alookup s.subsRefsMap t with _ | refs
        · simp [h1, h2] at hok
        · simp only [h1, h2] at hok
          by_cases h3 : refs.ids.length = 1
          · simp only [h3, if_true] at hok
            cases hok
            rfl
          · simp only [h3, if_false] at hok
            cases hok
            rfl
    have : alookup s'.subscriptionMap subId = none := by
      rw [hmap]; exact alookup_adel_self _ _
    simp [unsubscribe, this]

/-- C8 witness: the concrete fresh registry rejects id 5. -/
theorem unsubscribe_unknown_id_throws_witness :
    unsubscribe initialReg 5 = Except.error (errMsg 5) :=
  (unsubscribe_unknown_id_throws initialReg 5).1 (by rfl)

/-- C9: on ids of the form "timestamp-sequence", `sortLastMessageIds`
compares the numeric (timestamp, sequence) pairs lexicographically: the
result is defined and negative exactly when a's pair precedes b's. -/
theorem sortLastMessageIds_lex (a b : String) (ta sa tb sb : Nat)
    (ha : (splitDashChars a.data).map parseIntChars = [some ta, some sa])
    (hb : (splitDashChars b.data).map parseIntChars = [some tb, some sb]) :
    ∃ r : Int, sortLastMessageIds a b = some r ∧
      (r < 0 ↔ (ta < tb ∨ (ta = tb ∧ sa < sb))) := by
  unfold sortLastMessageIds
  by_cases hab : a = b
  · subst hab
    rw [ha] at hb
    injection hb with h1 h2
    injection h2 with h2 _
    injection h1 with h1
    injection h2 with h2
    subst h1; subst h2
    exact ⟨0, by simp, by omega⟩
  · rw [if_neg hab, ha, hb]
    by_cases ht : ta = tb
    · refine ⟨(sa : Int) - (sb : Int), ?_, by omega⟩
      simp [ht]
    · refine ⟨(ta : Int) - (tb : Int), ?_, by omega⟩
      simp [ht]

/-- C9 witness: "10-2" compares after "9-30" because its timestamp is
larger, although plain string order would put "10-2" first. -/
theorem sortLastMessageIds_lex_witness :
    ∃ r : Int, sortLastMessageIds "10-2" "9-30" = some r ∧
      (r < 0 ↔ (10 < 9 ∨ (10 = 9 ∧ 2 < 30))) :=
  sortLastMessageIds_lex "10-2" "9-30" 10 2 9 30 (by decide) (by decide)

/-- C3: unsubscribing a known id whose channel's reference set is a
singleton issues exactly one transport unsubscribe and one
punsubscribe for the channel and deletes the reference-set entry; with
more than one member it issues no transport command and removes only
this id from the set; in both cases the subscription record is
deleted. -/
theorem unsubscribe_transport_commands (s : RegState) (subId : Nat) (t : String)
    (refs : RefSet)
    (hmap : alookup s.subscriptionMap subId = some t)
    (hrefs : alookup s.subsRefsMap t = some refs) :
    (refs.ids.length = 1 →
      ∃ s', unsubscribe s subId = Except.ok s' ∧
        s'.log = s.log ++ [Cmd.unsubscribeCmd t, Cmd.punsubscribeCmd t] ∧
        alookup s'.subsRefsMap t = none ∧
        alookup s'.subscriptionMap subId = none) ∧
    (1 < refs.ids.length →
      ∃ s', unsubscribe s subId = Except.ok s' ∧
        s'.log = s.log ∧
        alookup s'.subsRefsMap t = some { refs with ids := setDelete refs.ids subId } ∧
        alookup s'.subscriptionMap subId = none) := by
  constructor
  · intro h1
    refine ⟨{ s with
        log := s.log ++ [Cmd.unsubscribeCmd t, Cmd.punsubscribeCmd t]
        subsRefsMap := adel s.subsRefsMap t
        subscriptionMap := adel s.subscriptionMap subId }, ?_, by simp, ?_, ?_⟩
    · simp [unsubscribe, hmap, hrefs, h1]
    · exact alookup_adel_self _ _
    · exact alookup_adel_self _ _
  · intro h1
    have hne : ¬ refs.ids.length = 1 := by omega
    refine ⟨{ s with
        subsRefsMap := aset s.subsRefsMap t { refs with ids := setDelete refs.ids subId }
        subscriptionMap := adel s.subscriptionMap subId }, ?_, by simp, ?_, ?_⟩
    · simp [unsubscribe, hmap, hrefs, hne]
    · exact alookup_aset_self _ _ _
    · exact alookup_adel_self _ _

/-- Registry with two subscribers sharing channel "C" and one lone
subscriber on "D": a concrete state for exercising `unsubscribe`. -/
def regTwoOnC : RegState :=
  { subscriptionMap := [(0, "C"), (1, "C"), (2, "D")]
    subsRefsMap := [("C", ⟨0, [0, 1]⟩), ("D", ⟨1, [2]⟩)]
    currentSubscriptionId := 3
    nextGen := 2
    inflight := []
    promises := [(0, PromiseState.resolvedP 0), (1, PromiseState.resolvedP 1),
                 (2, PromiseState.resolvedP 2)]
    log := [Cmd.subscribeCmd "C", Cmd.subscribeCmd "D"] }

/-- C3 witness: removing one of the two subscribers of "C" issues no
transport command, removes only that id, and deletes the record. -/
theorem unsubscribe_transport_commands_witness :
    ∃ s', unsubscribe regTwoOnC 0 = Except.ok s' ∧
      s'.log = regTwoOnC.log ∧
      alookup s'.subsRefsMap "C"
        = some { gen := 0, ids := setDelete [0, 1] 0 } ∧
      alookup s'.subscriptionMap 0 = none :=
  (unsubscribe_transport_commands regTwoOnC 0 "C" ⟨0, [0, 1]⟩
    (by decide) (by decide)).2 (by decide)

/-- C1 counterexample: two `subscribe("C", …)` calls racing before the
transport acknowledgment both take the first-subscriber path, so two
transport subscribe commands for "C" are issued and are simultaneously
in flight — there is no piggybacking on the unacknowledged command. -/
theorem concurrent_first_subscribe_double_command :
    (subscribe (subscribe initialReg "C" false) "C" false).log
      = [Cmd.subscribeCmd "C", Cmd.subscribeCmd "C"] ∧
    ((subscribe (subscribe initialReg "C" false) "C" false).inflight.filter
      (fun fl => fl.trigger = "C")).length = 2 := by decide

/-- C1 amended: a subscribe that finds a non-empty reference set (a
previously acknowledged transport subscription) issues no transport
command and resolves immediately, while a subscribe that finds the set
absent or still empty — including one racing an unacknowledged first
subscribe — always issues exactly one transport (p)subscribe command. -/
theorem subscribe_transport_commands (s : RegState) (t : String) (pat : Bool)
    (hfresh : alookup s.promises s.currentSubscriptionId = none) :
    (∀ refs, alookup s.subsRefsMap t = some refs → refs.ids ≠ [] →
      (subscribe s t pat).log = s.log ∧
      alookup (subscribe s t pat).promises s.currentSubscriptionId
        = some (PromiseState.resolvedP s.currentSubscriptionId)) ∧
    ((alookup s.subsRefsMap t = none ∨
      (∃ refs, alookup s.subsRefsMap t = some refs ∧ refs.ids = [])) →
      (subscribe s t pat).log
        = s.log ++ [if pat then Cmd.psubscribeCmd t else Cmd.subscribeCmd t] ∧
      alookup (subscribe s t pat).promises s.currentSubscriptionId
        = some PromiseState.pendingP) := by
  constructor
  · intro refs hrefs hne
    have hlen : refs.ids.length > 0 := List.length_pos.mpr hne
    constructor
    · simp [subscribe, hrefs, hlen]
    · simp only [subscribe, hrefs, hlen, if_true, gt_iff_lt]
      exact alookup_append_fresh _ _ _ hfresh
  · intro hcase
    rcases hcase with hnone | ⟨refs, hrefs, hempty⟩
    · constructor
      · simp [subscribe, hnone]
      · simp only [subscribe, hnone]
        exact alookup_append_fresh _ _ _ hfresh
    · have hlen : ¬ refs.ids.length > 0 := by simp [hempty]
      constructor
      · simp [subscribe, hrefs, hlen]
      · simp only [subscribe, hrefs, hlen, if_false, gt_iff_lt]
        exact alookup_append_fresh _ _ _ hfresh

/-- C1 amended witness: the very first subscribe on a fresh registry
issues one transport subscribe command and leaves its promise pending. -/
theorem subscribe_transport_commands_witness :
    (subscribe initialReg "C" false).log = [Cmd.subscribeCmd "C"] ∧
    alookup (subscribe initialReg "C" false).promises 0 = some PromiseState.pendingP := by
  have h := (subscribe_transport_commands initialReg "C" false (by rfl)).2 (Or.inl rfl)
  simpa using h

/-- C2 counterexample: after the first subscriber's transport subscribe
for "C" is acknowledged with an error, the returned promise does reject,
but the freshly allocated subscription record (id 0 ↦ "C") is still in
the subscription map and an (empty) reference-set entry for "C"
remains — the registry is not left free of residual state. -/
theorem failed_first_subscribe_residual_state :
    alookup (ack (subscribe initialReg "C" false) 0 false).promises 0
      = some PromiseState.rejectedP ∧
    alookup (ack (subscribe initialReg "C" false) 0 false).subscriptionMap 0
      = some "C" ∧
    alookup (ack (subscribe initialReg "C" false) 0 false).subsRefsMap "C"
      = some ⟨0, []⟩ := by decide

theorem find?_append_of_none {β : Type} (p : β → Bool) (l1 l2 : List β)
    (h : ∀ y ∈ l1, p y = false) : (l1 ++ l2).find? p = l2.find? p := by
  induction l1 with
  | nil => simp
  | cons x rest ih =>
    have hx : p x = false := h x (by simp)
    simp only [List.cons_append, List.find?, hx]
    exact ih (fun y hy => h y (by simp [hy]))

/-- C2 amended: when the first subscriber to a channel has its
transport subscribe acknowledged with an error, the promise returned by
that `subscribe` call rejects — but the registry is not cleaned up: the
newly allocated subscription record stays in the subscription map and an
empty reference-set entry stays for the channel.  (No other call waits
on the in-flight command: a concurrent subscribe issues its own.) -/
theorem failed_first_subscribe_rejects (s : RegState) (t : String) (pat : Bool)
    (hslow : ∀ refs, alookup s.subsRefsMap t = some refs → refs.ids = [])
    (hinf : ∀ fl ∈ s.inflight, fl.cmdIdx ≠ s.log.length)
    (hid : alookup s.subscriptionMap s.currentSubscriptionId = none) :
    alookup (ack (subscribe s t pat) s.log.length false).promises s.currentSubscriptionId
      = some PromiseState.rejectedP ∧
    alookup (ack (subscribe s t pat) s.log.length false).subscriptionMap
      s.currentSubscriptionId = some t ∧
    (∃ refs, alookup (ack (subscribe s t pat) s.log.length false).subsRefsMap t
      = some refs ∧ refs.ids = []) := by
  have hA : ∃ g, (subscribe s t pat).inflight
      = s.inflight ++ [⟨s.log.length, t, s.currentSubscriptionId, g, pat⟩] := by
    rcases h : alookup s.subsRefsMap t with _ | refs
    · exact ⟨s.nextGen, by simp [subscribe, h]⟩
    · exact ⟨refs.gen, by simp [subscribe, h, hslow refs h]⟩
  have hB : (subscribe s t pat).promises
      = s.promises ++ [(s.currentSubscriptionId, PromiseState.pendingP)] := by
    rcases h : alookup s.subsRefsMap t with _ | refs
    · simp [subscribe, h]
    · simp [subscribe, h, hslow refs h]
  have hC : (subscribe s t pat).subscriptionMap
      = s.subscriptionMap ++ [(s.currentSubscriptionId, t)] := by
    rcases h : alookup s.subsRefsMap t with _ | refs
    · simp [subscribe, h]
    · simp [subscribe, h, hslow refs h]
  have hD : ∃ refs, alookup (subscribe s t pat).subsRefsMap t
      = some refs ∧ refs.ids = [] := by
    rcases h : alookup s.subsRefsMap t with _ | refs
    · refine ⟨⟨s.nextGen, []⟩, ?_, rfl⟩
      simp only [subscribe, h]
      exact alookup_aset_self _ _ _
    · exact ⟨refs, by simp [subscribe, h, hslow refs h], hslow refs h⟩
  obtain ⟨g, hA⟩ := hA
  have hfind : (subscribe s t pat).inflight.find?
        (fun fl => fl.cmdIdx = s.log.length)
      = some ⟨s.log.length, t, s.currentSubscriptionId, g, pat⟩ := by
    rw [hA, find?_append_of_none]
    · simp [List.find?]
    · intro y hy
      simp [hinf y hy]
  refine ⟨?_, ?_, ?_⟩
  · simp only [ack, hfind]
    simp only [Bool.false_eq_true, if_false]
    rw [hB]
    exact alookup_aset_self _ _ _
  · simp only [ack, hfind]
    simp only [Bool.false_eq_true, if_false]
    rw [hC]
    exact alookup_append_fresh _ _ _ hid
  · simp only [ack, hfind]
    simp only [Bool.false_eq_true, if_false]
    exact hD

/-- C2 amended witness: the failed first subscribe on "C" from a fresh
registry, concretely. -/
theorem failed_first_subscribe_rejects_witness :
    alookup (ack (subscribe initialReg "C" false) 0 false).promises 0
      = some PromiseState.rejectedP ∧
    alookup (ack (subscribe initialReg "C" false) 0 false).subscriptionMap 0
      = some "C" ∧
    (∃ refs, alookup (ack (subscribe initialReg "C" false) 0 false).subsRefsMap "C"
      = some refs ∧ refs.ids = []) := by
  have h := failed_first_subscribe_rejects initialReg "C" false
    (by intro refs h; simp [initialReg, alookup] at h)
    (by intro fl h; simp [initialReg] at h)
    (by rfl)
  simpa [initialReg] using h

theorem forEachInvoke_no_throw (subMap : List (Nat × String)) (thrws : Nat → Bool)
    (l : List Nat)
    (h : ∀ i ∈ l, (alookup subMap i).isSome = true ∧ thrws i = false) :
    forEachInvoke subMap thrws l = (l, false) := by
  induction l with
  | nil => simp [forEachInvoke]
  | cons i rest ih =>
    obtain ⟨hsome, hfalse⟩ := h i (by simp)
    obtain ⟨t, ht⟩ := Option.isSome_iff_exists.mp hsome
    simp only [forEachInvoke, ht, hfalse, if_false, Bool.false_eq_true]
    rw [ih (fun j hj => h j (by simp [hj]))]

theorem forEachInvoke_stops_at_throw (subMap : List (Nat × String)) (thrws : Nat → Bool)
    (pre : List Nat) (i : Nat) (post : List Nat)
    (hpre : ∀ j ∈ pre, (alookup subMap j).isSome = true ∧ thrws j = false)
    (hi : (alookup subMap i).isSome = true) (hit : thrws i = true) :
    forEachInvoke subMap thrws (pre ++ i :: post) = (pre ++ [i], true) := by
  induction pre with
  | nil =>
    obtain ⟨t, ht⟩ := Option.isSome_iff_exists.mp hi
    simp [forEachInvoke, ht, hit]
  | cons j rest ih =>
    obtain ⟨hsome, hfalse⟩ := hpre j (by simp)
    obtain ⟨t, ht⟩ := Option.isSome_iff_exists.mp hsome
    simp only [List.cons_append, forEachInvoke, ht, hfalse, if_false, Bool.false_eq_true]
    have h2 := ih (fun j' hj' => hpre j' (by simp [hj']))
    simp only [List.append_eq, h2]

/-- C6 counterexample: channel "C" has the two listeners 0 and 1; the
listener of id 0 throws, and the dispatcher then never invokes the
listener of id 1, although 1 is in the resolved reference set. -/
theorem listener_throw_stops_dispatch :
    (onMessage (V := Nat)
      { subscriptionMap := [(0, "C"), (1, "C")]
        subsRefsMap := [("C", ⟨0, [0, 1]⟩)]
        currentSubscriptionId := 2
        nextGen := 1
        inflight := []
        promises := []
        log := [] }
      (fun i => i == 0) none (fun _ => none) none "C" "m").invoked = [0] ∧
    (1 : Nat) ∈ [0, 1] ∧
    (1 : Nat) ∉ (onMessage (V := Nat)
      { subscriptionMap := [(0, "C"), (1, "C")]
        subsRefsMap := [("C", ⟨0, [0, 1]⟩)]
        currentSubscriptionId := 2
        nextGen := 1
        inflight := []
        promises := []
        log := [] }
      (fun i => i == 0) none (fun _ => none) none "C" "m").invoked := by decide

/-- C6 amended: the dispatcher invokes the listeners of the resolved
reference set in order; when no listener throws, every listener is
invoked exactly once and no exception escapes, but a throwing listener
aborts the iteration — the listeners after it in the set are not
invoked and the exception escapes. -/
theorem onMessage_invocations {V : Type} (s : RegState) (thrws : Nat → Bool)
    (deserializer : Option (String → Option V)) (jsonParse : String → Option V)
    (pattern : Option String) (channel message : String) (refs : RefSet)
    (hrefs : alookup s.subsRefsMap (resolutionKey pattern channel) = some refs)
    (hne : refs.ids ≠ []) :
    ((∀ i ∈ refs.ids, (alookup s.subscriptionMap i).isSome = true ∧ thrws i = false) →
      (onMessage s thrws deserializer jsonParse pattern channel message).invoked
        = refs.ids ∧
      (onMessage s thrws deserializer jsonParse pattern channel message).threw
        = false) ∧
    (∀ pre i post, refs.ids = pre ++ i :: post →
      (∀ j ∈ pre, (alookup s.subscriptionMap j).isSome = true ∧ thrws j = false) →
      (alookup s.subscriptionMap i).isSome = true → thrws i = true →
      (onMessage s thrws deserializer jsonParse pattern channel message).invoked
        = pre ++ [i] ∧
      (onMessage s thrws deserializer jsonParse pattern channel message).threw
        = true) := by
  have hlen : ¬ refs.ids.length = 0 := by simp [hne]
  constructor
  · intro h
    have := forEachInvoke_no_throw s.subscriptionMap thrws refs.ids h
    constructor
    · simp [onMessage, hrefs, hlen, this]
    · simp [onMessage, hrefs, hlen, this]
  · intro pre i post hsplit hpre hi hit
    have := forEachInvoke_stops_at_throw s.subscriptionMap thrws pre i post hpre hi hit
    constructor
    · simp [onMessage, hrefs, hlen, hsplit, this]
    · simp [onMessage, hrefs, hlen, hsplit, this]

/-- C6 amended witness: with two healthy listeners on "C", both are
invoked exactly once and no exception escapes. -/
theorem onMessage_invocations_witness :
    (onMessage (V := Nat) regTwoOnC (fun _ => false) none (fun _ => none)
      none "C" "m").invoked = [0, 1] ∧
    (onMessage (V := Nat) regTwoOnC (fun _ => false) none (fun _ => none)
      none "C" "m").threw = false :=
  (onMessage_invocations regTwoOnC (fun _ => false) none (fun _ => none)
    none "C" "m" ⟨0, [0, 1]⟩ (by decide) (by decide)).1 (by decide)

/-- C7: the dispatcher resolves by pattern when one is present (the
empty string counting as absent, per JS truthiness), else by channel;
an absent or empty reference set silently drops the message with no
listener invocation and no escaping error; otherwise the listeners get
the custom deserializer's output when one is configured, else the JSON
parse, falling back to the raw un-parsed message whenever
deserialization throws — and a deserialization failure never makes the
dispatcher throw. -/
theorem onMessage_resolution {V : Type} (s : RegState) (thrws : Nat → Bool)
    (deserializer : Option (String → Option V)) (jsonParse : String → Option V)
    (pattern : Option String) (channel message : String) :
    (∀ p, p ≠ "" → resolutionKey (some p) channel = p) ∧
    (resolutionKey none channel = channel) ∧
    (alookup s.subsRefsMap (resolutionKey pattern channel) = none →
      onMessage s thrws deserializer jsonParse pattern channel message
        = ⟨[], none, false⟩) ∧
    (∀ refs, alookup s.subsRefsMap (resolutionKey pattern channel) = some refs →
      refs.ids = [] →
      onMessage s thrws deserializer jsonParse pattern channel message
        = ⟨[], none, false⟩) ∧
    (∀ refs, alookup s.subsRefsMap (resolutionKey pattern channel) = some refs →
      refs.ids ≠ [] →
      (onMessage s thrws deserializer jsonParse pattern channel message).payload
        = some (dispatchPayload deserializer jsonParse message)) ∧
    (∀ d, dispatchPayload (some d) jsonParse message
        = (match d message with
           | some v => Sum.inl v
           | none => Sum.inr message)) ∧
    (dispatchPayload none jsonParse message
        = (match jsonParse message with
           | some v => Sum.inl v
           | none => Sum.inr message)) ∧
    (∀ refs, alookup s.subsRefsMap (resolutionKey pattern channel) = some refs →
      refs.ids ≠ [] →
      (∀ i ∈ refs.ids, (alookup s.subscriptionMap i).isSome = true ∧ thrws i = false) →
      (onMessage s thrws deserializer jsonParse pattern channel message).threw
        = false) := by
  refine ⟨?_, rfl, ?_, ?_, ?_, ?_, rfl, ?_⟩
  · intro p hp
    simp [resolutionKey, hp]
  · intro h
    simp [onMessage, h]
  · intro refs hrefs hempty
    simp [onMessage, hrefs, hempty]
  · intro refs hrefs hne
    have hlen : ¬ refs.ids.length = 0 := by simp [hne]
    simp [onMessage, hrefs, hlen]
  · intro d
    rfl
  · intro refs hrefs hne h
    have hlen : ¬ refs.ids.length = 0 := by simp [hne]
    simp [onMessage, hrefs, hlen,
      forEachInvoke_no_throw s.subscriptionMap thrws refs.ids h]

/-- C7 witness: on a registry with listeners on "C", a message whose
payload fails to JSON-parse is still delivered — as the raw string —
with nothing thrown, under the pattern-absent resolution. -/
theorem onMessage_resolution_witness :
    (onMessage (V := Nat) regTwoOnC (fun _ => false) none (fun _ => none)
      none "C" "raw").payload = some (Sum.inr "raw") ∧
    (onMessage (V := Nat) regTwoOnC (fun _ => false) none (fun _ => none)
      none "C" "raw").threw = false := by
  have h := onMessage_resolution (V := Nat) regTwoOnC (fun _ => false) none
    (fun _ => none) none "C" "raw"
  exact ⟨by simpa using h.2.2.2.2.1 ⟨0, [0, 1]⟩ (by decide) (by decide),
         h.2.2.2.2.2.2.2 ⟨0, [0, 1]⟩ (by decide) (by decide) (by decide)⟩

theorem subscribeAll_pullQueue {α : Type} (s : ItState α) :
    (subscribeAll s).pullQueue = s.pullQueue := by
  cases h : s.subscriptionIds <;> simp [subscribeAll, h]

theorem subscribeAll_pushQueue {α : Type} (s : ItState α) :
    (subscribeAll s).pushQueue = s.pushQueue := by
  cases h : s.subscriptionIds <;> simp [subscribeAll, h]

theorem subscribeAll_listening {α : Type} (s : ItState α) :
    (subscribeAll s).listening = s.listening := by
  cases h : s.subscriptionIds <;> simp [subscribeAll, h]

theorem emptyQueue_not_listening {α : Type} (s : ItState α) (h : s.listening = false) :
    emptyQueue s = s := by
  simp [emptyQueue, h]

theorem queuesInv_applyOp {α : Type} (s : ItState α) (op : IterOp α)
    (h : s.pullQueue = [] ∨ s.pushQueue = []) :
    (applyOp s op).pullQueue = [] ∨ (applyOp s op).pushQueue = [] := by
  cases op with
  | nextOp =>
    simp only [applyOp, next]
    by_cases hl : (subscribeAll s).listening
    · simp only [hl, if_true]
      rcases hq : (subscribeAll s).pushQueue with _ | ⟨v, rest⟩
      · right
        simp [pullValue, hq]
      · left
        have hp : (subscribeAll s).pullQueue = [] := by
          rw [subscribeAll_pullQueue]
          rcases h with h | h
          · exact h
          · rw [subscribeAll_pushQueue, h] at hq
            cases hq
        simp [pullValue, hq, hp]
    · have hl' : (subscribeAll s).listening = false := by
        simpa using hl
      simp only [hl', Bool.false_eq_true, if_false, itReturn]
      rw [emptyQueue_not_listening _ hl', subscribeAll_pullQueue, subscribeAll_pushQueue]
      exact h
  | pushOp v =>
    simp only [applyOp, pushValue]
    rcases hq : (subscribeAll s).pullQueue with _ | ⟨t, rest⟩
    · left
      simp [hq]
    · right
      have hp : (subscribeAll s).pushQueue = [] := by
        rw [subscribeAll_pushQueue]
        rcases h with h | h
        · rw [subscribeAll_pullQueue, h] at hq
          cases hq
        · exact h
      simp [hq, hp]
  | returnOp =>
    simp only [applyOp, itReturn]
    by_cases hl : s.listening
    · simp [emptyQueue, hl]
    · have hl' : s.listening = false := by simpa using hl
      rw [emptyQueue_not_listening _ hl']
      exact h
  | throwOp =>
    simp only [applyOp]
    by_cases hl : s.listening
    · simp [emptyQueue, hl]
    · have hl' : s.listening = false := by simpa using hl
      rw [emptyQueue_not_listening _ hl']
      exact h

theorem queuesInv_runOps {α : Type} (s : ItState α) (ops : List (IterOp α))
    (h : s.pullQueue = [] ∨ s.pushQueue = []) :
    (runOps s ops).pullQueue = [] ∨ (runOps s ops).pushQueue = [] := by
  induction ops generalizing s with
  | nil => exact h
  | cons op rest ih =>
    exact ih (applyOp s op) (queuesInv_applyOp s op h)

/-- C4: under every interleaving of iterator operations, the pending
requests queue and the buffered results queue are never simultaneously
non-empty; moreover a push with a pending request resolves the oldest
request at once (buffering otherwise), and a pull with a buffered value
consumes the oldest at once (registering as pending otherwise). -/
theorem queues_never_both_nonempty (eventNames : List String) (ops : List (IterOp Nat)) :
    ((runOps (initIt Nat eventNames) ops).pullQueue = [] ∨
     (runOps (initIt Nat eventNames) ops).pushQueue = []) ∧
    (∀ s : ItState Nat, ∀ v t rest, s.pullQueue = t :: rest →
      (pushValue s v).pullQueue = rest ∧
      (pushValue s v).pushQueue = s.pushQueue ∧
      (pushValue s v).effs
        = (subscribeAll s).effs ++ [IterEff.resolveE t (IterResult.value v)]) ∧
    (∀ s : ItState Nat, ∀ v, s.pullQueue = [] →
      (pushValue s v).pushQueue = s.pushQueue ++ [v] ∧
      (pushValue s v).effs = (subscribeAll s).effs) ∧
    (∀ s : ItState Nat, ∀ v rest, s.pushQueue = v :: rest →
      (pullValue s).1.pushQueue = rest ∧
      (pullValue s).1.pullQueue = s.pullQueue ∧
      (pullValue s).1.effs
        = s.effs ++ [IterEff.resolveE s.nextToken (IterResult.value v)]) ∧
    (∀ s : ItState Nat, s.pushQueue = [] →
      (pullValue s).1.pullQueue = s.pullQueue ++ [s.nextToken] ∧
      (pullValue s).1.effs = s.effs) := by
  refine ⟨queuesInv_runOps _ ops (Or.inl rfl), ?_, ?_, ?_, ?_⟩
  · intro s v t rest hq
    have hq' : (subscribeAll s).pullQueue = t :: rest := by
      rw [subscribeAll_pullQueue, hq]
    simp [pushValue, hq', subscribeAll_pushQueue]
  · intro s v hq
    have hq' : (subscribeAll s).pullQueue = [] := by
      rw [subscribeAll_pullQueue, hq]
    simp [pushValue, hq', subscribeAll_pushQueue]
  · intro s v rest hq
    simp [pullValue, hq]
  · intro s hq
    simp [pullValue, hq]

/-- A listening iterator with one pending request and nothing buffered. -/
def pendingPullIt : ItState Nat :=
  { pullQueue := [4]
    pushQueue := []
    listening := true
    subscriptionIds := some [0]
    eventsArray := ["A"]
    nextToken := 5
    nextSubId := 1
    effs := [IterEff.subscribeE "A"] }

/-- C4 witness: pushing into an iterator with a pending request
resolves that request immediately instead of buffering. -/
theorem queues_never_both_nonempty_witness :
    (pushValue pendingPullIt 7).pullQueue = [] ∧
    (pushValue pendingPullIt 7).pushQueue = pendingPullIt.pushQueue ∧
    (pushValue pendingPullIt 7).effs
      = (subscribeAll pendingPullIt).effs
        ++ [IterEff.resolveE 4 (IterResult.value 7)] :=
  (queues_never_both_nonempty ["A"] []).2.1 pendingPullIt 7 4 [] rfl

theorem resolveEffs_append {α : Type} (a b : List (IterEff α)) :
    resolveEffs (a ++ b) = resolveEffs a ++ resolveEffs b :=
  List.filter_append _ _

theorem unsubEffs_append {α : Type} (a b : List (IterEff α)) :
    unsubEffs (a ++ b) = unsubEffs a ++ unsubEffs b :=
  List.filter_append _ _

theorem resolveEffs_subscribeE_map {α : Type} (l : List String) :
    resolveEffs (α := α) (l.map IterEff.subscribeE) = [] := by
  induction l with
  | nil => rfl
  | cons e rest _ih => simp [resolveEffs, List.filter]

theorem unsubEffs_subscribeE_map {α : Type} (l : List String) :
    unsubEffs (α := α) (l.map IterEff.subscribeE) = [] := by
  induction l with
  | nil => rfl
  | cons e rest _ih => simp [unsubEffs, List.filter]

theorem next_closed {α : Type} (s : ItState α) (h : s.listening = false) :
    next s = (subscribeAll s, NextOutcome.doneNow) := by
  have hl' : (subscribeAll s).listening = false := by
    rw [subscribeAll_listening]; exact h
  simp only [next, hl', Bool.false_eq_true, if_false, itReturn,
    emptyQueue_not_listening _ hl']

theorem subscribeAll_effs_filtered {α : Type} (s : ItState α) :
    resolveEffs (subscribeAll s).effs = resolveEffs s.effs ∧
    unsubEffs (subscribeAll s).effs = unsubEffs s.effs := by
  cases hsub : s.subscriptionIds with
  | none =>
    constructor
    · simp [subscribeAll, hsub, resolveEffs_append, resolveEffs_subscribeE_map]
    · simp [subscribeAll, hsub, unsubEffs_append, unsubEffs_subscribeE_map]
  | some ids => simp [subscribeAll, hsub]

theorem emptyQueue_listening {α : Type} (s : ItState α) (h : s.listening = true) :
    (emptyQueue s).listening = false ∧
    (emptyQueue s).pullQueue = [] ∧
    (emptyQueue s).pushQueue = [] ∧
    (emptyQueue s).effs
      = s.effs ++ (s.subscriptionIds.getD []).map IterEff.unsubscribeE
        ++ s.pullQueue.map (fun t => IterEff.resolveE t IterResult.done) := by
  cases hsub : s.subscriptionIds <;> simp [emptyQueue, h, hsub]

theorem closed_runOps {α : Type} (s : ItState α) (ops : List (IterOp α))
    (h1 : s.listening = false) (h2 : s.pullQueue = []) :
    (runOps s ops).listening = false ∧ (runOps s ops).pullQueue = [] ∧
    resolveEffs (runOps s ops).effs = resolveEffs s.effs ∧
    unsubEffs (runOps s ops).effs = unsubEffs s.effs := by
  induction ops generalizing s with
  | nil => exact ⟨h1, h2, rfl, rfl⟩
  | cons op rest ih =>
    have step : (applyOp s op).listening = false ∧ (applyOp s op).pullQueue = [] ∧
        resolveEffs (applyOp s op).effs = resolveEffs s.effs ∧
        unsubEffs (applyOp s op).effs = unsubEffs s.effs := by
      cases op with
      | nextOp =>
        have hl' : (subscribeAll s).listening = false := by
          rw [subscribeAll_listening]; exact h1
        have happ : applyOp s IterOp.nextOp = subscribeAll s := by
          simp [applyOp, next_closed s h1]
        rw [happ]
        exact ⟨hl', by rw [subscribeAll_pullQueue]; exact h2,
          (subscribeAll_effs_filtered s).1, (subscribeAll_effs_filtered s).2⟩
      | pushOp v =>
        have hq' : (subscribeAll s).pullQueue = [] := by
          rw [subscribeAll_pullQueue]; exact h2
        have happ : applyOp s (IterOp.pushOp v)
            = { subscribeAll s with pushQueue := (subscribeAll s).pushQueue ++ [v] } := by
          simp [applyOp, pushValue, hq']
        rw [happ]
        exact ⟨by rw [show ({ subscribeAll s with
            pushQueue := (subscribeAll s).pushQueue ++ [v] } : ItState α).listening
            = (subscribeAll s).listening from rfl, subscribeAll_listening]; exact h1,
          hq', (subscribeAll_effs_filtered s).1, (subscribeAll_effs_filtered s).2⟩
      | returnOp =>
        have happ : applyOp s IterOp.returnOp = s := by
          simp [applyOp, itReturn, emptyQueue_not_listening s h1]
        rw [happ]
        exact ⟨h1, h2, rfl, rfl⟩
      | throwOp =>
        have happ : applyOp s IterOp.throwOp = s := by
          simp [applyOp, emptyQueue_not_listening s h1]
        rw [happ]
        exact ⟨h1, h2, rfl, rfl⟩
    obtain ⟨a, b, c, d⟩ := step
    obtain ⟨a', b', c', d'⟩ := ih (applyOp s op) a b
    exact ⟨a', b', c'.trans c, d'.trans d⟩

/-- C5: the first `return()` on a listening iterator stops listening,
emits an unsubscribe for every acquired subscription id, resolves every
still-pending request with done and clears both queues; any further
`return()` is a no-op; and after it, no interleaving of pushes and
`next()` calls settles another promise, while any later `next()`
yields a done result. -/
theorem iter_return_cleanup (eventNames : List String) (ops more : List (IterOp Nat))
    (h : (runOps (initIt Nat eventNames) ops).listening = true) :
    (itReturn (runOps (initIt Nat eventNames) ops)).listening = false ∧
    (itReturn (runOps (initIt Nat eventNames) ops)).pullQueue = [] ∧
    (itReturn (runOps (initIt Nat eventNames) ops)).pushQueue = [] ∧
    (itReturn (runOps (initIt Nat eventNames) ops)).effs
      = (runOps (initIt Nat eventNames) ops).effs
        ++ ((runOps (initIt Nat eventNames) ops).subscriptionIds.getD []).map
            IterEff.unsubscribeE
        ++ (runOps (initIt Nat eventNames) ops).pullQueue.map
            (fun t => IterEff.resolveE t IterResult.done) ∧
    itReturn (itReturn (runOps (initIt Nat eventNames) ops))
      = itReturn (runOps (initIt Nat eventNames) ops) ∧
    (runOps (itReturn (runOps (initIt Nat eventNames) ops)) more).listening = false ∧
    resolveEffs (runOps (itReturn (runOps (initIt Nat eventNames) ops)) more).effs
      = resolveEffs (itReturn (runOps (initIt Nat eventNames) ops)).effs ∧
    (next (runOps (itReturn (runOps (initIt Nat eventNames) ops)) more)).2
      = NextOutcome.doneNow := by
  obtain ⟨e1, e2, e3, e4⟩ := emptyQueue_listening (runOps (initIt Nat eventNames) ops) h
  obtain ⟨c1, c2, c3, _⟩ :=
    closed_runOps (itReturn (runOps (initIt Nat eventNames) ops)) more e1 e2
  have hnext : (next (runOps (itReturn (runOps (initIt Nat eventNames) ops)) more)).2
      = NextOutcome.doneNow := by
    rw [next_closed _ c1]
  exact ⟨e1, e2, e3, e4, emptyQueue_not_listening _ e1, c1, c3, hnext⟩

/-- C5 witness: return() after no operations on a fresh iterator, then
a push and a next(): the next() still reports done. -/
theorem iter_return_cleanup_witness :
    (next (runOps (itReturn (runOps (initIt Nat ["A"]) []))
      [IterOp.pushOp 3, IterOp.nextOp])).2 = NextOutcome.doneNow :=
  (iter_return_cleanup ["A"] [] [IterOp.pushOp 3, IterOp.nextOp] rfl).2.2.2.2.2.2.2

/-- C10: when `return()` precedes the first `next()`, that `next()`
still performs the lazy registry subscribe for every event name of the
iterator, reports a done result, and no later interleaving of
operations ever emits a registry unsubscribe for the ids so acquired. -/
theorem return_before_first_next (eventNames : List String) (more : List (IterOp Nat)) :
    (next (itReturn (initIt Nat eventNames))).2 = NextOutcome.doneNow ∧
    (next (itReturn (initIt Nat eventNames))).1.effs
      = eventNames.map IterEff.subscribeE ∧
    unsubEffs (runOps (next (itReturn (initIt Nat eventNames))).1 more).effs = [] := by
  have hretl : (itReturn (initIt Nat eventNames)).listening = false := by
    simp [itReturn, emptyQueue, initIt]
  have hnext : next (itReturn (initIt Nat eventNames))
      = (subscribeAll (itReturn (initIt Nat eventNames)), NextOutcome.doneNow) :=
    next_closed _ hretl
  have hsubAll : subscribeAll (itReturn (initIt Nat eventNames))
      = { itReturn (initIt Nat eventNames) with
          subscriptionIds := some ((List.range eventNames.length).map (0 + ·))
          nextSubId := eventNames.length
          effs := eventNames.map IterEff.subscribeE } := by
    have hsub : (itReturn (initIt Nat eventNames)).subscriptionIds = none := by
      simp [itReturn, emptyQueue, initIt]
    have heff : (itReturn (initIt Nat eventNames)).effs = [] := by
      simp [itReturn, emptyQueue, initIt]
    have hnsi : (itReturn (initIt Nat eventNames)).nextSubId = 0 := by
      simp [itReturn, emptyQueue, initIt]
    have hev : (itReturn (initIt Nat eventNames)).eventsArray = eventNames := by
      simp [itReturn, emptyQueue, initIt]
    simp [subscribeAll, hsub, heff, hnsi, hev]
  refine ⟨by simp [hnext], by simp [hnext, hsubAll], ?_⟩
  have hpq : (next (itReturn (initIt Nat eventNames))).1.pullQueue = [] := by
    simp only [hnext, hsubAll]
    simp [itReturn, emptyQueue, initIt]
  have hls : (next (itReturn (initIt Nat eventNames))).1.listening = false := by
    simp only [hnext, hsubAll]
    simp [hretl]
  obtain ⟨_, _, _, c4⟩ :=
    closed_runOps ((next (itReturn (initIt Nat eventNames))).1) more hls hpq
  rw [c4]
  simp [hnext, hsubAll, unsubEffs_subscribeE_map]

end GRS
